import Mathlib

/-!
Verification of the USP Broker core (`src/core/usp_broker.c`).

The development shallowly embeds the broker's data model and the
operations referenced by the claims:

* the `usp_services[]` table is a `List UspService` of live entries
  (an array slot with `instance == INVALID` corresponds to absence
  from the list);
* `str_vector_t` / doubly linked list collections are Lean lists;
* `INVALID` results are `Option.none`;
* external collaborators (data-model store, transports, request and
  subscription tables) are parameters of the embedded functions, per the
  spec's "out of scope, typed interfaces" rule;
* side effects that the claims talk about (queueing messages, inserting
  schema nodes, signalling request status) are recorded as an ordered
  event trace.

Function names follow the C source wherever Lean allows.
-/

/-- C error codes used by the embedded fragment of `usp_broker.c`
    (values from `usp_err.h`; only identity matters here). -/
inductive UspErr
  | ok
  | messageNotUnderstood
  | registerFailure
  | deregisterFailure
  | pathAlreadyRegistered
  | resourcesExceeded
  | requestDenied
  | commandFailure
  | internalError
  | otherCode (code : Nat)
deriving DecidableEq, Repr

/-- `uds_path_t`: which of the Broker's UDS sockets the peer connected to. -/
inductive UdsPathType
  | brokersAgent
  | brokersController
deriving DecidableEq, Repr

/-- `mtp_conn_t`: an MTP connection handle.  `protNone` is
    `protocol == kMtpProtocol_None` (no connection); `uds` carries the
    `uds.path_type` discriminator; `nonUds` is any other transport. -/
inductive MtpConn
  | protNone
  | uds (path_type : UdsPathType) (conn_id : Nat)
  | nonUds (proto : Nat) (conn_id : Nat)
deriving DecidableEq, Repr

/-- `subs_map_t`: a Broker-subscription to Service-subscription pairing. -/
structure SubsMapEntry where
  broker_instance : Nat
  path : List Char
  service_instance : Nat
  subscription_id : String
deriving DecidableEq, Repr

/-- `req_map_t`: an active async USP command. -/
structure ReqMapEntry where
  request_instance : Nat
  path : List Char
  command_key : String
deriving DecidableEq, Repr

/-- `msg_map_t`: a passthru message in flight. -/
structure MsgMapEntry where
  broker_msg_id : String
  original_msg_id : String
  originator : String
  mtp_conn : MtpConn
deriving DecidableEq, Repr

/-- `usp_service_t`: one live entry of the `usp_services[]` table. -/
structure UspService where
  instance_num : Nat
  endpoint_id : String
  group_id : Nat
  has_controller : Bool
  gsdm_msg_id : Option String
  registered_paths : List (List Char)
  subs_map : List SubsMapEntry
  req_map : List ReqMapEntry
  msg_map : List MsgMapEntry
  controller_mtp : MtpConn
  agent_mtp : MtpConn
deriving DecidableEq, Repr

/-- Replace the element at index `i` (identity when out of range);
    stands for an in-place update through a `usp_service_t *` pointer. -/
def modifyIdx : List α → Nat → (α → α) → List α
  | [], _, _ => []
  | x :: xs, 0, f => f x :: xs
  | x :: xs, n + 1, f => x :: modifyIdx xs n f

/-- Unlink the first element satisfying `p` (a `DLLIST_Unlink` of the
    node found by the corresponding `..._Find`). -/
def removeFirstBy (p : α → Bool) : List α → List α
  | [] => []
  | x :: xs => if p x then xs else x :: removeFirstBy p xs

theorem modifyIdx_length (l : List α) (i : Nat) (f : α → α) :
    (modifyIdx l i f).length = l.length := by
  induction l generalizing i with
  | nil => rfl
  | cons x xs ih =>
    cases i with
    | zero => rfl
    | succ n => simp [modifyIdx, ih]

theorem modifyIdx_get_self (l : List α) (i : Nat) (f : α → α) (h : i < l.length) :
    (modifyIdx l i f).get ⟨i, by rw [modifyIdx_length]; exact h⟩ = f (l.get ⟨i, h⟩) := by
  induction l generalizing i with
  | nil => simp at h
  | cons x xs ih =>
    cases i with
    | zero => rfl
    | succ n => exact ih n (by simpa using h)

theorem modifyIdx_get_other (l : List α) (i j : Nat) (f : α → α) (h : j < l.length)
    (hne : j ≠ i) :
    (modifyIdx l i f).get ⟨j, by rw [modifyIdx_length]; exact h⟩ = l.get ⟨j, h⟩ := by
  induction l generalizing i j with
  | nil => simp at h
  | cons x xs ih =>
    cases i with
    | zero =>
      cases j with
      | zero => exact absurd rfl hne
      | succ m => rfl
    | succ n =>
      cases j with
      | zero => rfl
      | succ m => exact ih n m (by simpa using h) (by omega)

theorem modifyIdx_modifyIdx (l : List α) (i : Nat) (f g : α → α) :
    modifyIdx (modifyIdx l i f) i g = modifyIdx l i (fun x => g (f x)) := by
  induction l generalizing i with
  | nil => rfl
  | cons x xs ih =>
    cases i with
    | zero => rfl
    | succ n => simp [modifyIdx, ih]

theorem modifyIdx_eq_self (l : List α) (i : Nat) (f : α → α)
    (h : ∀ hi : i < l.length, f (l.get ⟨i, hi⟩) = l.get ⟨i, hi⟩) :
    modifyIdx l i f = l := by
  induction l generalizing i with
  | nil => rfl
  | cons x xs ih =>
    cases i with
    | zero => simpa [modifyIdx] using h (by simp)
    | succ n =>
      simp only [modifyIdx, List.cons.injEq, true_and]
      exact ih n (fun hi => h (by simpa using hi))

theorem removeFirstBy_append_of_all_neg (p : α → Bool) (l : List α) (x : α)
    (hl : ∀ a ∈ l, p a = false) (hx : p x = true) :
    removeFirstBy p (l ++ [x]) = l := by
  induction l with
  | nil => simp [removeFirstBy, hx]
  | cons a as ih =>
    have ha : p a = false := hl a (by simp)
    simp [removeFirstBy, ha, ih (fun b hb => hl b (by simp [hb]))]

theorem removeFirstBy_length_of_found (p : α → Bool) (l : List α) (x : α)
    (h : l.find? p = some x) :
    (removeFirstBy p l).length + 1 = l.length := by
  induction l with
  | nil => simp at h
  | cons a as ih =>
    by_cases ha : p a
    · simp [removeFirstBy, ha]
    · rw [List.find?_cons_of_neg _ (by simpa using ha)] at h
      simp [removeFirstBy, ha, ih h]

/-- Modelled from the spec: the `IS_NUMERIC` character macro of
    `common_defs.h` (header not under `src/`), an ASCII decimal digit. -/
def IS_NUMERIC (c : Char) : Bool :=
  ('0' ≤ c) && (c ≤ '9')

/-- Modelled from the spec: the `IS_ALPHA_NUMERIC` character macro of
    `common_defs.h` (header not under `src/`); the spec's "alphanumerics"
    are ASCII letters and digits. -/
def IS_ALPHA_NUMERIC (c : Char) : Bool :=
  (('a' ≤ c) && (c ≤ 'z')) || (('A' ≤ c) && (c ≤ 'Z')) || IS_NUMERIC c

/-- The `DM_ROOT` literal `"Device."` of `ValidateUspServicePath`. -/
def dmRoot : List Char := "Device.".data

/-- The `strchr` scan of `ValidateUspServicePath`: after every `'.'` the
    following character must not be numeric.  `true` iff no `'.'` is
    immediately followed by a digit. -/
def noInstanceNumbers : List Char → Bool
  | [] => true
  | [_] => true
  | a :: b :: rest => !(a = '.' && IS_NUMERIC b) && noInstanceNumbers (b :: rest)

/-- The `path[len-1] == '.'` check (the source reaches it only on
    non-empty paths, guaranteed by the `DM_ROOT` check). -/
def endsInDot (path : List Char) : Bool :=
  match path.getLast? with
  | some c => c = '.'
  | none => false

/-- `ValidateUspServicePath` of `usp_broker.c`: textual validation of a
    Register path.  `strncmp(path, DM_ROOT, 7)` is the 7-character
    `List.take` comparison. -/
def ValidateUspServicePath (path : List Char) : UspErr :=
  if path.take 7 ≠ dmRoot then UspErr.registerFailure
  else if !endsInDot path then UspErr.registerFailure
  else if !(path.all (fun c => IS_ALPHA_NUMERIC c || c = '.')) then UspErr.registerFailure
  else if !noInstanceNumbers path then UspErr.registerFailure
  else UspErr.ok

/-- `SubsMap_FindByUspServiceSubsId`: first entry with the given
    subscription id. -/
def SubsMap_FindByUspServiceSubsId (sm : List SubsMapEntry) (subscription_id : String) :
    Option SubsMapEntry :=
  sm.find? (fun smap => smap.subscription_id = subscription_id)

/-- `SubsMap_FindByPath`: first entry whose path specification matches the
    absolute path.  `TEXT_UTILS_IsPathMatch` lives in `text_utils.c`
    (outside `src/`), so the matcher is a parameter. -/
def SubsMap_FindByPath (sm : List SubsMapEntry) (path : List Char)
    (pathMatch : List Char → List Char → Bool) : Option SubsMapEntry :=
  sm.find? (fun smap => pathMatch path smap.path)

/-- `ReqMap_Find`: first entry with the given path and command key. -/
def ReqMap_Find (rm : List ReqMapEntry) (path : List Char) (command_key : String) :
    Option ReqMapEntry :=
  rm.find? (fun rmap => rmap.path = path && rmap.command_key = command_key)

/-- `MsgMap_Find`: first entry whose `broker_msg_id` equals the received
    message id. -/
def MsgMap_Find (mm : List MsgMapEntry) (msg_id : String) : Option MsgMapEntry :=
  mm.find? (fun map => map.broker_msg_id = msg_id)

/-- `FindUspServiceByEndpoint`: scan of `usp_services[]` for the first live
    entry with the endpoint id, returned with its index. -/
def findServiceByEndpoint : List UspService → String → Option (Nat × UspService)
  | [], _ => none
  | s :: rest, eid =>
      if s.endpoint_id = eid then some (0, s)
      else (findServiceByEndpoint rest eid).map (fun p => (p.1 + 1, p.2))

/-- `CalcNextUspServiceInstanceNumber`: highest live instance number
    plus one. -/
def CalcNextUspServiceInstanceNumber (tbl : List UspService) : Nat :=
  (tbl.foldl (fun m us => if us.instance_num > m then us.instance_num else m) 0) + 1

/-- `UpdateUspServiceMRT`: store the connection in the role-appropriate
    field (UDS discriminates the Broker's agent/controller sockets; every
    other transport shares one connection for both directions). -/
def UpdateUspServiceMRT (us : UspService) (mtpc : MtpConn) : UspService :=
  match mtpc with
  | MtpConn.uds UdsPathType.brokersAgent _ => { us with agent_mtp := mtpc }
  | MtpConn.uds UdsPathType.brokersController _ => { us with controller_mtp := mtpc }
  | _ => { us with controller_mtp := mtpc, agent_mtp := mtpc }

/-- The `mtpc->protocol == kMtpProtocol_UDS && mtpc->uds.path_type ==
    kUdsPathType_BrokersAgent` test of `USP_BROKER_AddUspService`. -/
def isBrokersAgentConn : MtpConn → Bool
  | MtpConn.uds UdsPathType.brokersAgent _ => true
  | _ => false

/-- `AddUspService`: initialise a fresh `usp_service_t` (`memset`, field
    initialisation, then `UpdateUspServiceMRT`). -/
def mkNewUspService (tbl : List UspService) (endpoint_id : String) (group_id : Nat)
    (mtpc : MtpConn) : UspService :=
  UpdateUspServiceMRT
    { instance_num := CalcNextUspServiceInstanceNumber tbl
      endpoint_id := endpoint_id
      group_id := group_id
      has_controller := false
      gsdm_msg_id := none
      registered_paths := []
      subs_map := []
      req_map := []
      msg_map := []
      controller_mtp := MtpConn.protNone
      agent_mtp := MtpConn.protNone } mtpc

/-- `USP_BROKER_AddUspService`: called on a successful UDS connect.  The
    data-model collaborators are parameters: `freeGroupId` is
    `DATA_MODEL_FindUnusedGroupId()` (`none` = none free), `maxServices`
    bounds the table (`MAX_USP_SERVICES`), `informOk` is the
    `USP_DM_InformInstance` outcome. -/
def USP_BROKER_AddUspService (tbl : List UspService) (maxServices : Nat)
    (freeGroupId : Option Nat) (informOk : Bool) (endpoint_id : String)
    (mtpc : MtpConn) : UspErr × List UspService :=
  match findServiceByEndpoint tbl endpoint_id with
  | some (i, _) =>
      let tbl1 := modifyIdx tbl i (fun us => UpdateUspServiceMRT us mtpc)
      (UspErr.ok,
        modifyIdx tbl1 i (fun us =>
          if isBrokersAgentConn mtpc then { us with has_controller := true } else us))
  | none =>
      if tbl.length ≥ maxServices then (UspErr.resourcesExceeded, tbl)
      else
        match freeGroupId with
        | none => (UspErr.resourcesExceeded, tbl)
        | some gid =>
            let tbl1 := tbl ++ [mkNewUspService tbl endpoint_id gid mtpc]
            if !informOk then (UspErr.internalError, tbl1)
            else
              (UspErr.ok,
                modifyIdx tbl1 tbl.length (fun us =>
                  if isBrokersAgentConn mtpc then { us with has_controller := true } else us))

/-- A USP message queued by the Broker in reply to a Register message:
    either `ERROR_RESP_CreateSingle` output or a `RegisterResp` whose
    `registered_path_results` pair each requested path with its error
    code (`AddRegisterResp_RegisteredPathResult`). -/
inductive UspResponse
  | errorResp (msg_id : String) (err : UspErr)
  | registerResp (msg_id : String) (results : List (List Char × UspErr))
deriving DecidableEq, Repr

/-- A raw USP message as it appears to the Broker: a body-less protobuf
    payload level.  `body` carries the parsed message kind the handler
    validated, or `none` when the parse checks fail. -/
inductive BrokerEvent
  | queueResponse (resp : UspResponse)
  | queueGetSupportedDM (msg_id : String) (obj_paths : List (List Char))
  | addSchemaNode (path : List Char) (group_id : Nat) (single_inst : Bool)
  | queueUspError (err : UspErr) (to_endpoint : String) (msg_id : String)
  | routeNotification (broker_instance : Nat)
  | reqMapAdd (entry : ReqMapEntry)
  | reqMapRemove (entry : ReqMapEntry)
  | sendOperate (path : List Char) (command_key : String)
  | signalStatusActive (request_instance : Nat)
  | signalComplete (request_instance : Nat)
  | queueToService (endpoint_id : String) (msg_id : String) (body : List Nat)
  | queueToOriginator (endpoint_id : String) (msg_id : String) (body : List Nat)
      (mtp : MtpConn)
deriving DecidableEq, Repr

/-- `RegisterUspServicePath`: validate a requested path and add it to the
    Service's owned list.  The checks run in source order: (1) already
    registered by any USP Service (exact `STR_VECTOR_Find` match over the
    whole table), (2) `ValidateUspServicePath`, (3) already in the schema
    (`DATA_MODEL_GetPathProperties` reporting `PP_EXISTS_IN_SCHEMA`,
    abstracted as the `schema` predicate). -/
def RegisterUspServicePath (tbl : List UspService) (i : Nat)
    (schema : List Char → Bool) (requested_path : List Char) :
    UspErr × List UspService :=
  if tbl.any (fun p => p.registered_paths.contains requested_path) then
    (UspErr.pathAlreadyRegistered, tbl)
  else if ValidateUspServicePath requested_path ≠ UspErr.ok then
    (ValidateUspServicePath requested_path, tbl)
  else if schema requested_path then
    (UspErr.pathAlreadyRegistered, tbl)
  else
    (UspErr.ok,
      modifyIdx tbl i (fun us =>
        { us with registered_paths := us.registered_paths ++ [requested_path] }))

/-- The path loop of `USP_BROKER_HandleRegister`: calls
    `RegisterUspServicePath` for each requested path; on a failure with
    `allow_partial == false` it replaces the response by a single ERROR,
    destroys the Service's `registered_paths` and returns `count = 0`;
    otherwise it records the per-path result and increments `count`. -/
def registerPathsLoop (i : Nat) (schema : List Char → Bool) (msg_id : String)
    (allowPartialFlag : Bool) (tbl : List UspService) :
    List (List Char) → List (List Char × UspErr) → Nat →
    UspResponse × List UspService × Nat
  | [], results, count => (UspResponse.registerResp msg_id results, tbl, count)
  | p :: rest, results, count =>
      let r := RegisterUspServicePath tbl i schema p
      if r.1 ≠ UspErr.ok ∧ allowPartialFlag = false then
        (UspResponse.errorResp msg_id r.1,
          modifyIdx r.2 i (fun us => { us with registered_paths := [] }), 0)
      else
        registerPathsLoop i schema msg_id allowPartialFlag r.2 rest
          (results ++ [(p, r.1)]) (count + 1)

/-- Collaborator outcomes consumed by `USP_BROKER_HandleRegister` and
    `QueueGetSupportedDMToUspService`: the free group id returned by
    `DATA_MODEL_FindUnusedGroupId`, the `USP_DM_InformInstance` outcome,
    the `CalcBrokerMessageId` value for the GSDM request, and per-path
    success of `DM_PRIV_AddSchemaPath`. -/
structure HandleRegEnv where
  freeGroupId : Option Nat
  informOk : Bool
  gsdmMsgId : String
  addSchemaOk : List Char → Bool

/-- The early-exit part of `USP_BROKER_HandleRegister` before the path
    loop: parse checks, empty-path check, repeated-Register check and
    `AddUspService` of an unknown endpoint.  Returns either the ERROR
    response to queue (with the possibly already-extended table) or the
    table and index of the Service the loop runs on. -/
def registerPreamble (tbl : List UspService) (env : HandleRegEnv)
    (maxServices : Nat) (msg_id : String)
    (body : Option (Bool × List (List Char))) (endpoint_id : String)
    (mtpc : MtpConn) :
    (UspResponse × List UspService) ⊕ (List UspService × Nat) :=
  match body with
  | none =>
      Sum.inl (UspResponse.errorResp msg_id UspErr.messageNotUnderstood, tbl)
  | some (_, reg_paths) =>
      if reg_paths = [] then
        Sum.inl (UspResponse.errorResp msg_id UspErr.registerFailure, tbl)
      else
        match findServiceByEndpoint tbl endpoint_id with
        | some (i, us) =>
            if us.registered_paths ≠ [] then
              Sum.inl (UspResponse.errorResp msg_id UspErr.registerFailure, tbl)
            else
              Sum.inr (tbl, i)
        | none =>
            if tbl.length ≥ maxServices then
              Sum.inl (UspResponse.errorResp msg_id UspErr.registerFailure, tbl)
            else
              match env.freeGroupId with
              | none =>
                  Sum.inl (UspResponse.errorResp msg_id UspErr.registerFailure, tbl)
              | some gid =>
                  let tbl1 := tbl ++ [mkNewUspService tbl endpoint_id gid mtpc]
                  if !env.informOk then
                    Sum.inl (UspResponse.errorResp msg_id UspErr.registerFailure, tbl1)
                  else
                    Sum.inr (tbl1, tbl.length)

/-- `QueueGetSupportedDMToUspService`: no-op when the Service owns no
    paths or its controller-direction connection dropped; otherwise it
    stores `gsdm_msg_id`, queues the GSDM request, and then registers each
    owned path into the data model as a provisional single-instance object
    tagged with the Service's group id (`DM_PRIV_AddSchemaPath`, skipped
    with a log on failure). -/
def QueueGetSupportedDMToUspService (tbl : List UspService) (i : Nat)
    (env : HandleRegEnv) : List UspService × List BrokerEvent :=
  match tbl.get? i with
  | none => (tbl, [])
  | some us =>
      if us.registered_paths = [] then (tbl, [])
      else if us.controller_mtp = MtpConn.protNone then (tbl, [])
      else
        (modifyIdx tbl i (fun u => { u with gsdm_msg_id := some env.gsdmMsgId }),
          BrokerEvent.queueGetSupportedDM env.gsdmMsgId us.registered_paths ::
            us.registered_paths.filterMap (fun p =>
              if env.addSchemaOk p then
                some (BrokerEvent.addSchemaNode p us.group_id true)
              else none))

/-- `USP_BROKER_HandleRegister`: preamble, path loop, then the `exit`
    label (queue the one response built; if any path was processed
    without an early ERROR exit, call `QueueGetSupportedDMToUspService`). -/
def USP_BROKER_HandleRegister (tbl : List UspService) (schema : List Char → Bool)
    (env : HandleRegEnv) (maxServices : Nat) (msg_id : String)
    (body : Option (Bool × List (List Char))) (endpoint_id : String)
    (mtpc : MtpConn) : List UspService × List BrokerEvent :=
  match registerPreamble tbl env maxServices msg_id body endpoint_id mtpc with
  | Sum.inl (resp, tblE) => (tblE, [BrokerEvent.queueResponse resp])
  | Sum.inr (tbl1, i) =>
      match body with
      | none => (tbl1, [])
      | some (allowPartialFlag, reg_paths) =>
          let r := registerPathsLoop i schema msg_id allowPartialFlag tbl1 reg_paths [] 0
          let g := if r.2.2 > 0 then QueueGetSupportedDMToUspService r.2.1 i env
                   else (r.2.1, [])
          (g.1, BrokerEvent.queueResponse r.1 :: g.2)

/-- Modelled from the spec: the `ONLY_CONTROLLER_CONNECTIONS` flag bit of
    `usp_broker.h` (header not under `src/`); the spec documents it as the
    caller's "controller-only" selector, a single flag bit. -/
def ONLY_CONTROLLER_CONNECTIONS : Nat := 1

/-- `USP_BROKER_GetUspServiceInstance`: instance number of the connected
    Service with the endpoint, or `none` (`INVALID`).  The guard keeps the
    source's bitwise `&` between the masked flags and the C integer value
    of `has_controller == false`. -/
def USP_BROKER_GetUspServiceInstance (tbl : List UspService)
    (endpoint_id : String) (flags : Nat) : Option Nat :=
  match findServiceByEndpoint tbl endpoint_id with
  | none => none
  | some (_, us) =>
      if ((flags &&& ONLY_CONTROLLER_CONNECTIONS) &&&
          (if us.has_controller then 0 else 1)) ≠ 0 then
        none
      else
        some us.instance_num

/-- `DeleteMatchingOperateRequest`: form the full command path
    (`obj_path` ++ `command_name`), look it up with the command key in the
    Service's request map; when absent do nothing, otherwise delete the
    Broker's Request-table row (`DEVICE_REQUEST_DeleteInstance`, the table
    modelled as its list of instance numbers) and unlink the map entry. -/
def DeleteMatchingOperateRequest (us : UspService) (requestTable : List Nat)
    (obj_path command_name : List Char) (command_key : String) :
    UspService × List Nat :=
  let command_path := obj_path ++ command_name
  match ReqMap_Find us.req_map command_path command_key with
  | none => (us, requestTable)
  | some rmap =>
      let rm' := removeFirstBy
        (fun r => r.path = command_path && r.command_key = command_key) us.req_map
      ({ us with req_map := rm' }, requestTable.erase rmap.request_instance)

/-- Parsed `Usp__Notify` content used by the handler. -/
inductive NotifyCase
  | operComplete (obj_path command_name : List Char) (command_key : String)
  | otherNotify
deriving DecidableEq, Repr

/-- A received Notify message: `body = none` models the parse checks
    failing at the top of the handler. -/
structure NotifyMsg where
  msg_id : String
  body : Option (Bool × String × NotifyCase)
deriving DecidableEq, Repr

/-- `USP_BROKER_HandleNotification`: reject (USP ERROR `REQUEST_DENIED`)
    a malformed Notify, one with `send_resp == true`, one from an unknown
    endpoint, or one whose subscription id is not in the Service's
    `subs_map`; otherwise route it to the Broker subscription
    (`DEVICE_SUBSCRIPTION_RouteNotification`, outcome given by
    `routeErr`), delete the matching Operate request for an
    `OperationComplete`, and queue a USP ERROR only when routing failed. -/
def USP_BROKER_HandleNotification (tbl : List UspService)
    (requestTable : List Nat) (routeErr : Nat → UspErr) (msg : NotifyMsg)
    (endpoint_id : String) : List UspService × List Nat × List BrokerEvent :=
  match msg.body with
  | none =>
      (tbl, requestTable,
        [BrokerEvent.queueUspError UspErr.requestDenied endpoint_id msg.msg_id])
  | some (send_resp, subscription_id, nc) =>
      if send_resp then
        (tbl, requestTable,
          [BrokerEvent.queueUspError UspErr.requestDenied endpoint_id msg.msg_id])
      else
        match findServiceByEndpoint tbl endpoint_id with
        | none =>
            (tbl, requestTable,
              [BrokerEvent.queueUspError UspErr.requestDenied endpoint_id msg.msg_id])
        | some (i, us) =>
            match SubsMap_FindByUspServiceSubsId us.subs_map subscription_id with
            | none =>
                (tbl, requestTable,
                  [BrokerEvent.queueUspError UspErr.requestDenied endpoint_id
                    msg.msg_id])
            | some smap =>
                let err := routeErr smap.broker_instance
                let d := match nc with
                  | NotifyCase.operComplete op cn ck =>
                      DeleteMatchingOperateRequest us requestTable op cn ck
                  | NotifyCase.otherNotify => (us, requestTable)
                (modifyIdx tbl i (fun _ => d.1), d.2,
                  BrokerEvent.routeNotification smap.broker_instance ::
                    (if err ≠ UspErr.ok then
                      [BrokerEvent.queueUspError err endpoint_id msg.msg_id]
                    else []))

/-- The `operation_resp` case of the single operation result in an
    Operate Response. -/
inductive OperRespCase
  | reqObjPath (p : List Char)
  | outputArgs (args : List (String × String))
  | cmdFailure (err : UspErr)
  | unspecified
deriving DecidableEq, Repr

/-- An Operate Response as the Broker sees it after
    `MSG_UTILS_ValidateUspResponse` (external, `msg_utils.c`): its
    validation outcome (non-`ok` also covers an ERROR message body or a
    missing `operate_resp`), and the `operation_results` list of
    (`executed_command`, case) pairs. -/
structure OperateRespMsg where
  validateErr : UspErr
  results : List (List Char × OperRespCase)
deriving DecidableEq, Repr

/-- `ProcessOperateResponse` (restricted to the fields the claims use):
    returns the error code and the `is_complete` flag.  Exactly one
    operation result must be present, for the command requested; a
    `req_obj_path` on an async command means "started"; output args mean
    "completed"; a `cmd_failure` propagates its code; the `default:` case
    of the `switch` keeps `err == USP_ERR_OK` with `is_finished` false. -/
def ProcessOperateResponse (resp : OperateRespMsg) (path : List Char)
    (is_sync : Bool) : UspErr × Bool :=
  if resp.validateErr ≠ UspErr.ok then (resp.validateErr, false)
  else
    match resp.results with
    | [res] =>
        if res.1 ≠ path then (UspErr.internalError, false)
        else
          match res.2 with
          | OperRespCase.reqObjPath _ =>
              if is_sync then (UspErr.internalError, false) else (UspErr.ok, false)
          | OperRespCase.outputArgs _ => (UspErr.ok, true)
          | OperRespCase.cmdFailure e => (e, false)
          | OperRespCase.unspecified => (UspErr.ok, false)
    | _ => (UspErr.internalError, false)

/-- `SendOperateAndProcessResponse`: fail without sending when the
    controller-direction connection dropped; otherwise send the Operate
    request (`DM_EXEC_SendRequestAndWaitForResponse`, whose reply is the
    `resp?` parameter, `none` = timeout) and process the response. -/
def SendOperateAndProcessResponse (us : UspService) (path : List Char)
    (is_sync : Bool) (command_key : String) (resp? : Option OperateRespMsg) :
    UspErr × Bool × List BrokerEvent :=
  if us.controller_mtp = MtpConn.protNone then (UspErr.internalError, false, [])
  else
    match resp? with
    | none => (UspErr.internalError, false, [BrokerEvent.sendOperate path command_key])
    | some resp =>
        let r := ProcessOperateResponse resp path is_sync
        (r.1, r.2, [BrokerEvent.sendOperate path command_key])

/-- `Broker_AsyncOperate`: refuse (`REQUEST_DENIED`) without an
    `OperationComplete` subscription covering the command path; read the
    Request row's command key (`DATA_MODEL_GetParameterValue`, outcome in
    `cmdKey`); refuse a duplicate `(path, command_key)`; insert the
    `ReqMapEntry` *before* sending; on a failed send/response remove it
    again; on success mark the Request row Active, and handle an
    unexpectedly-complete response by signalling completion and removing
    the entry. -/
def Broker_AsyncOperate (us : UspService)
    (pathMatch : List Char → List Char → Bool) (cmdKey : UspErr ⊕ String)
    (resp? : Option OperateRespMsg) (reqPath : List Char) (inst : Nat) :
    UspErr × UspService × List BrokerEvent :=
  match SubsMap_FindByPath us.subs_map reqPath pathMatch with
  | none => (UspErr.requestDenied, us, [])
  | some _ =>
      match cmdKey with
      | Sum.inl e => (e, us, [])
      | Sum.inr key =>
          match ReqMap_Find us.req_map reqPath key with
          | some _ => (UspErr.requestDenied, us, [])
          | none =>
              let entry : ReqMapEntry :=
                { request_instance := inst, path := reqPath, command_key := key }
              let us1 := { us with req_map := us.req_map ++ [entry] }
              let s := SendOperateAndProcessResponse us1 reqPath false key resp?
              let rmPred : ReqMapEntry → Bool :=
                fun r => r.path = reqPath && r.command_key = key
              if s.1 ≠ UspErr.ok then
                (s.1, { us1 with req_map := removeFirstBy rmPred us1.req_map },
                  BrokerEvent.reqMapAdd entry :: s.2.2 ++
                    [BrokerEvent.reqMapRemove entry])
              else if s.2.1 then
                (UspErr.ok, { us1 with req_map := removeFirstBy rmPred us1.req_map },
                  BrokerEvent.reqMapAdd entry :: s.2.2 ++
                    [BrokerEvent.signalStatusActive inst,
                      BrokerEvent.signalComplete inst,
                      BrokerEvent.reqMapRemove entry])
              else
                (UspErr.ok, us1,
                  BrokerEvent.reqMapAdd entry :: s.2.2 ++
                    [BrokerEvent.signalStatusActive inst])

/-- `PassThruToUspService`: remap the originator's message id to a fresh
    Broker id, queue the rewritten request to the owner Service, and, only
    when queueing succeeded (`sendErr == ok`), record the `MsgMapEntry`
    used to route the response back.  `body` stands for the rest of the
    USP message, untouched by the rewrite. -/
def PassThruToUspService (tbl : List UspService) (i : Nat) (msg_id : String)
    (body : List Nat) (endpoint_id : String) (mtpc : MtpConn)
    (broker_msg_id : String) (sendErr : UspErr) :
    UspErr × List UspService × List BrokerEvent :=
  match tbl.get? i with
  | none => (UspErr.internalError, tbl, [])
  | some us =>
      let evs := [BrokerEvent.queueToService us.endpoint_id broker_msg_id body]
      if sendErr ≠ UspErr.ok then (sendErr, tbl, evs)
      else
        let entry : MsgMapEntry :=
          { broker_msg_id := broker_msg_id, original_msg_id := msg_id,
            originator := endpoint_id, mtp_conn := mtpc }
        (UspErr.ok,
          modifyIdx tbl i (fun u => { u with msg_map := u.msg_map ++ [entry] }),
          evs)

/-- `AttemptPassThruForResponse`: when a well-formed response or ERROR
    from a known Service matches a `msg_map` entry by `broker_msg_id`,
    rewrite the message id back to the original, queue the message to the
    recorded originator over the recorded MTP, and unlink the entry;
    in every other case fall through to the normal handlers (`false`). -/
def AttemptPassThruForResponse (tbl : List UspService) (wellFormed : Bool)
    (msg_id : String) (body : List Nat) (endpoint_id : String) :
    Bool × List UspService × List BrokerEvent :=
  if !wellFormed then (false, tbl, [])
  else
    match findServiceByEndpoint tbl endpoint_id with
    | none => (false, tbl, [])
    | some (i, us) =>
        match MsgMap_Find us.msg_map msg_id with
        | none => (false, tbl, [])
        | some map =>
            (true,
              modifyIdx tbl i (fun u =>
                { u with msg_map :=
                    removeFirstBy (fun e => e.broker_msg_id = msg_id) u.msg_map }),
              [BrokerEvent.queueToOriginator map.originator map.original_msg_id
                body map.mtp_conn])

theorem take7_eq_iff (path : List Char) :
    path.take 7 = dmRoot ↔ ∃ rest, path = dmRoot ++ rest := by
  constructor
  · intro h
    exact ⟨path.drop 7, by rw [← h]; exact (List.take_append_drop 7 path).symm⟩
  · rintro ⟨rest, rfl⟩
    have h7 : dmRoot.length = 7 := by decide
    rw [← h7, List.take_left]

theorem endsInDot_iff (path : List Char) :
    endsInDot path = true ↔ ∃ front, path = front ++ ['.'] := by
  constructor
  · intro h
    unfold endsInDot at h
    cases hl : path.getLast? with
    | none => rw [hl] at h; simp at h
    | some c =>
      rw [hl] at h
      have hc : c = '.' := by simpa using h
      have hne : path ≠ [] := by
        intro e; rw [e] at hl; simp at hl
      refine ⟨path.dropLast, ?_⟩
      have hd := List.dropLast_append_getLast hne
      have hg : path.getLast hne = c := by
        have := List.getLast?_eq_getLast path hne
        rw [this] at hl
        exact (Option.some.injEq _ _ ▸ hl : _)
      rw [hg, hc] at hd
      exact hd.symm
  · rintro ⟨front, rfl⟩
    unfold endsInDot
    rw [List.getLast?_concat]
    simp

theorem noInstanceNumbers_iff_chain (path : List Char) :
    noInstanceNumbers path = true ↔
      List.Chain' (fun a b => ¬(a = '.' ∧ IS_NUMERIC b = true)) path := by
  induction path with
  | nil => simp [noInstanceNumbers]
  | cons a rest ih =>
    cases rest with
    | nil => simp [noInstanceNumbers]
    | cons b rest2 =>
      rw [List.chain'_cons, ← ih]
      simp [noInstanceNumbers]
      tauto

/-- C3: `ValidateUspServicePath` returns `USP_ERR_OK` exactly when the
path begins with `"Device."`, ends with `'.'`, contains only alphanumeric
characters and `'.'`, and contains no `'.'` immediately followed by a
digit; in every other case it returns `USP_ERR_REGISTER_FAILURE` (so
register paths lacking a trailing dot, containing an instance reference,
or not rooted at `Device.` are rejected). -/
theorem C3_validateUspServicePath_spec (path : List Char) :
    (ValidateUspServicePath path = UspErr.ok ↔
      ((∃ rest, path = dmRoot ++ rest) ∧
        (∃ front, path = front ++ ['.']) ∧
        (∀ c ∈ path, IS_ALPHA_NUMERIC c = true ∨ c = '.') ∧
        List.Chain' (fun a b => ¬(a = '.' ∧ IS_NUMERIC b = true)) path)) ∧
    (ValidateUspServicePath path = UspErr.ok ∨
      ValidateUspServicePath path = UspErr.registerFailure) := by
  have h1 := take7_eq_iff path
  have h2 := endsInDot_iff path
  have h3 : (path.all (fun c => IS_ALPHA_NUMERIC c || c = '.')) = true ↔
      ∀ c ∈ path, IS_ALPHA_NUMERIC c = true ∨ c = '.' := by
    rw [List.all_eq_true]
    constructor
    · intro h c hc
      have := h c hc
      simpa using this
    · intro h c hc
      rcases h c hc with h' | h'
      · simp [h']
      · simp [h']
  have h4 := noInstanceNumbers_iff_chain path
  constructor
  · rw [ValidateUspServicePath]
    split_ifs with ha hb hc hd
    · constructor
      · intro h; simp at h
      · rintro ⟨hr, -, -, -⟩
        exact ha (h1.mpr hr)
    · constructor
      · intro h; simp at h
      · rintro ⟨-, hf, -, -⟩
        rw [h2.mpr hf] at hb
        simp at hb
    · constructor
      · intro h; simp at h
      · rintro ⟨-, -, hal, -⟩
        rw [h3.mpr hal] at hc
        simp at hc
    · constructor
      · intro h; simp at h
      · rintro ⟨-, -, -, hch⟩
        rw [h4.mpr hch] at hd
        simp at hd
    · simp only [true_iff]
      have hbb : endsInDot path = true := by
        cases hv : endsInDot path
        · exact absurd (by rw [hv]; rfl) hb
        · rfl
      have hcb : (path.all (fun c => IS_ALPHA_NUMERIC c || c = '.')) = true := by
        cases hv : path.all (fun c => IS_ALPHA_NUMERIC c || c = '.')
        · exact absurd (by rw [hv]; rfl) hc
        · rfl
      have hdb : noInstanceNumbers path = true := by
        cases hv : noInstanceNumbers path
        · exact absurd (by rw [hv]; rfl) hd
        · rfl
      exact ⟨h1.mp (not_not.mp ha), h2.mp hbb, h3.mp hcb, h4.mp hdb⟩
  · rw [ValidateUspServicePath]
    split_ifs <;> simp

/-- C8: for a connected Service, `USP_BROKER_GetUspServiceInstance`
returns `INVALID` exactly when the caller passed the
`ONLY_CONTROLLER_CONNECTIONS` flag and the Service's `has_controller`
field is false, and returns the Service's instance number otherwise
(the source's bitwise `&` against `has_controller==false` behaves as the
logical conjunction because the flag is bit 0). -/
theorem C8_getUspServiceInstance_spec (tbl : List UspService)
    (endpoint_id : String) (flags : Nat) (i : Nat) (us : UspService)
    (h : findServiceByEndpoint tbl endpoint_id = some (i, us)) :
    (USP_BROKER_GetUspServiceInstance tbl endpoint_id flags = none ↔
      (flags &&& ONLY_CONTROLLER_CONNECTIONS ≠ 0 ∧ us.has_controller = false)) ∧
    ((flags &&& ONLY_CONTROLLER_CONNECTIONS = 0 ∨ us.has_controller = true) →
      USP_BROKER_GetUspServiceInstance tbl endpoint_id flags = some us.instance_num) := by
  have hmod : (flags &&& 1) &&& 1 = flags &&& 1 := by
    rw [Nat.and_one_is_mod, Nat.and_one_is_mod, Nat.mod_mod_of_dvd]
    exact dvd_refl 2
  unfold USP_BROKER_GetUspServiceInstance ONLY_CONTROLLER_CONNECTIONS
  rw [h]
  cases hc : us.has_controller with
  | false =>
    simp only [hc, if_false, hmod]
    by_cases hz : flags &&& 1 = 0
    · simp [hz]
    · simp [hz]
  | true =>
    simp [hc, Nat.and_zero]

/-- Concrete Service shared by witness instantiations: a live entry
    without a controller-side connection. -/
def baseService : UspService :=
  { instance_num := 3
    endpoint_id := "e1"
    group_id := 2
    has_controller := false
    gsdm_msg_id := none
    registered_paths := []
    subs_map := []
    req_map := []
    msg_map := []
    controller_mtp := MtpConn.protNone
    agent_mtp := MtpConn.protNone }

theorem C8_witness :
    findServiceByEndpoint [baseService] ("e1") = some (0, baseService) ∧
    ((USP_BROKER_GetUspServiceInstance [baseService] ("e1") 1 = none ↔
        ((1 : Nat) &&& ONLY_CONTROLLER_CONNECTIONS ≠ 0 ∧
          baseService.has_controller = false)) ∧
      (((1 : Nat) &&& ONLY_CONTROLLER_CONNECTIONS = 0 ∨
          baseService.has_controller = true) →
        USP_BROKER_GetUspServiceInstance [baseService] ("e1") 1 =
          some baseService.instance_num)) :=
  ⟨by decide,
    C8_getUspServiceInstance_spec [baseService] ("e1") 1 0 baseService (by decide)⟩

/-- C10: an `OperationComplete` notification whose full command path
(`obj_path ++ command_name`) and command key match no entry in the
Service's `req_map` leaves both `req_map` and the Broker's Request table
unchanged; a Request-table row is deleted only together with its matching
`ReqMapEntry`. -/
theorem C10_deleteMatchingOperateRequest_spec (us : UspService)
    (requestTable : List Nat) (obj_path command_name : List Char)
    (command_key : String) :
    (ReqMap_Find us.req_map (obj_path ++ command_name) command_key = none →
      DeleteMatchingOperateRequest us requestTable obj_path command_name
        command_key = (us, requestTable)) ∧
    (∀ e, ReqMap_Find us.req_map (obj_path ++ command_name) command_key = some e →
      (DeleteMatchingOperateRequest us requestTable obj_path command_name
          command_key).2 = requestTable.erase e.request_instance ∧
        (DeleteMatchingOperateRequest us requestTable obj_path command_name
            command_key).1.req_map.length + 1 = us.req_map.length) ∧
    ((DeleteMatchingOperateRequest us requestTable obj_path command_name
        command_key).2 ≠ requestTable →
      (DeleteMatchingOperateRequest us requestTable obj_path command_name
        command_key).1.req_map ≠ us.req_map) := by
  refine ⟨?_, ?_, ?_⟩
  · intro h
    simp only [DeleteMatchingOperateRequest, h]
  · intro e he
    simp only [DeleteMatchingOperateRequest, he]
    refine ⟨trivial, ?_⟩
    exact removeFirstBy_length_of_found _ _ e he
  · intro hch
    cases hf : ReqMap_Find us.req_map (obj_path ++ command_name) command_key with
    | none =>
      exfalso
      apply hch
      simp only [DeleteMatchingOperateRequest, hf]
    | some e =>
      have hlen := removeFirstBy_length_of_found _ _ e hf
      simp only [DeleteMatchingOperateRequest, hf]
      intro hEq
      rw [hEq] at hlen
      omega

/-- Concrete Service used to instantiate the witnesses that need a
    populated request map. -/
def opService : UspService :=
  { baseService with
      subs_map :=
        [{ broker_instance := 4, path := "Device.Foo.Reboot()".data,
           service_instance := 9, subscription_id := "1-77-BROKER" }],
      req_map :=
        [{ request_instance := 7, path := "Device.Foo.Reboot()".data,
           command_key := "K" }] }

theorem C10_witness :
    ReqMap_Find opService.req_map (("Device.Foo.".data) ++ ("Reboot()".data))
        ("K2") = none ∧
    DeleteMatchingOperateRequest opService [7] ("Device.Foo.".data)
        ("Reboot()".data) ("K2") = (opService, [7]) :=
  ⟨by decide,
    (C10_deleteMatchingOperateRequest_spec opService [7] ("Device.Foo.".data)
        ("Reboot()".data) ("K2")).1 (by decide)⟩

/-- C5: a Notify is routed to the Broker subscription keyed by the
mapping's `broker_instance` if and only if the sending endpoint is a known
Service, `send_resp` is false, and the Service's `subs_map` contains an
entry whose subscription id equals the notification's; in every failing
case (including `send_resp = true`) a USP ERROR with `REQUEST_DENIED` is
queued back to the sender. -/
theorem C5_handleNotification_spec (tbl : List UspService)
    (requestTable : List Nat) (routeErr : Nat → UspErr) (msg : NotifyMsg)
    (endpoint_id : String) (send_resp : Bool) (subscription_id : String)
    (nc : NotifyCase)
    (hb : msg.body = some (send_resp, subscription_id, nc)) :
    (send_resp = true →
      (USP_BROKER_HandleNotification tbl requestTable routeErr msg
          endpoint_id).2.2 =
        [BrokerEvent.queueUspError UspErr.requestDenied endpoint_id msg.msg_id]) ∧
    (findServiceByEndpoint tbl endpoint_id = none →
      (USP_BROKER_HandleNotification tbl requestTable routeErr msg
          endpoint_id).2.2 =
        [BrokerEvent.queueUspError UspErr.requestDenied endpoint_id msg.msg_id]) ∧
    (∀ i us, send_resp = false →
      findServiceByEndpoint tbl endpoint_id = some (i, us) →
      SubsMap_FindByUspServiceSubsId us.subs_map subscription_id = none →
      (USP_BROKER_HandleNotification tbl requestTable routeErr msg
          endpoint_id).2.2 =
        [BrokerEvent.queueUspError UspErr.requestDenied endpoint_id msg.msg_id]) ∧
    (∀ i us smap, send_resp = false →
      findServiceByEndpoint tbl endpoint_id = some (i, us) →
      SubsMap_FindByUspServiceSubsId us.subs_map subscription_id = some smap →
      routeErr smap.broker_instance = UspErr.ok →
      (USP_BROKER_HandleNotification tbl requestTable routeErr msg
          endpoint_id).2.2 =
        [BrokerEvent.routeNotification smap.broker_instance]) ∧
    ((∃ k, BrokerEvent.routeNotification k ∈
        (USP_BROKER_HandleNotification tbl requestTable routeErr msg
          endpoint_id).2.2) ↔
      (send_resp = false ∧ ∃ i us,
        findServiceByEndpoint tbl endpoint_id = some (i, us) ∧
        SubsMap_FindByUspServiceSubsId us.subs_map subscription_id ≠ none)) := by
  refine ⟨?_, ?_, ?_, ?_, ?_⟩
  · intro hsr
    subst hsr
    simp [USP_BROKER_HandleNotification, hb]
  · intro hf
    cases send_resp <;> simp [USP_BROKER_HandleNotification, hb, hf]
  · intro i us hsr hf hs
    subst hsr
    simp [USP_BROKER_HandleNotification, hb, hf, hs]
  · intro i us smap hsr hf hs hr
    subst hsr
    simp [USP_BROKER_HandleNotification, hb, hf, hs, hr]
  · constructor
    · rintro ⟨k, hk⟩
      cases send_resp with
      | true => simp [USP_BROKER_HandleNotification, hb] at hk
      | false =>
        cases hfind : findServiceByEndpoint tbl endpoint_id with
        | none => simp [USP_BROKER_HandleNotification, hb, hfind] at hk
        | some p =>
          obtain ⟨i, us⟩ := p
          cases hsub : SubsMap_FindByUspServiceSubsId us.subs_map
              subscription_id with
          | none => simp [USP_BROKER_HandleNotification, hb, hfind, hsub] at hk
          | some smap =>
            exact ⟨rfl, i, us, rfl, by rw [hsub]; simp⟩
    · rintro ⟨hsr, i, us, hf, hs⟩
      subst hsr
      cases hsub : SubsMap_FindByUspServiceSubsId us.subs_map
          subscription_id with
      | none => exact absurd hsub hs
      | some smap =>
        refine ⟨smap.broker_instance, ?_⟩
        simp [USP_BROKER_HandleNotification, hb, hf, hsub]

/-- Concrete Notify message used by the C5 witness. -/
def notifyMsg1 : NotifyMsg :=
  { msg_id := "n1", body := some (false, "1-77-BROKER", NotifyCase.otherNotify) }

theorem C5_witness :
    notifyMsg1.body = some (false, "1-77-BROKER", NotifyCase.otherNotify) ∧
    (USP_BROKER_HandleNotification [opService] [7] (fun _ => UspErr.ok)
        notifyMsg1 ("e1")).2.2 = [BrokerEvent.routeNotification 4] := by
  refine ⟨rfl, ?_⟩
  have h := C5_handleNotification_spec [opService] [7] (fun _ => UspErr.ok)
    notifyMsg1 ("e1") false ("1-77-BROKER") NotifyCase.otherNotify rfl
  exact h.2.2.2.1 0 opService
    { broker_instance := 4, path := "Device.Foo.Reboot()".data,
      service_instance := 9, subscription_id := "1-77-BROKER" }
    rfl (by decide) (by decide) rfl

theorem sendOperate_events (us : UspService) (path : List Char) (is_sync : Bool)
    (key : String) (resp? : Option OperateRespMsg)
    (hc : us.controller_mtp ≠ MtpConn.protNone) :
    (SendOperateAndProcessResponse us path is_sync key resp?).2.2 =
      [BrokerEvent.sendOperate path key] := by
  unfold SendOperateAndProcessResponse
  rw [if_neg hc]
  cases resp? <;> rfl

/-- C4 (amended): the async Operate vendor hook refuses with
`REQUEST_DENIED` (sending nothing, `req_map` untouched) when the Service
has no `OperationComplete`-covering subscription for the command path,
and also when the Request row's command key cannot be read (propagating
that error) or when `(path, command_key)` already occurs in `req_map`;
otherwise the `ReqMapEntry(request_instance, path, command_key)` is
inserted before the Operate request is sent, the Request row is marked
Active on a successful response, immediate completion is signalled on an
output-args response (removing the entry), and the entry is removed again
when sending or response processing fails. -/
theorem C4_brokerAsyncOperate_spec (us : UspService)
    (pathMatch : List Char → List Char → Bool) (key : String)
    (resp? : Option OperateRespMsg) (reqPath : List Char) (inst : Nat) :
    (SubsMap_FindByPath us.subs_map reqPath pathMatch = none →
      Broker_AsyncOperate us pathMatch (Sum.inr key) resp? reqPath inst =
        (UspErr.requestDenied, us, [])) ∧
    (∀ err, SubsMap_FindByPath us.subs_map reqPath pathMatch ≠ none →
      Broker_AsyncOperate us pathMatch (Sum.inl err) resp? reqPath inst =
        (err, us, [])) ∧
    (SubsMap_FindByPath us.subs_map reqPath pathMatch ≠ none →
      ReqMap_Find us.req_map reqPath key ≠ none →
      Broker_AsyncOperate us pathMatch (Sum.inr key) resp? reqPath inst =
        (UspErr.requestDenied, us, [])) ∧
    (∀ res entry,
      res = Broker_AsyncOperate us pathMatch (Sum.inr key) resp? reqPath inst →
      entry = ({ request_instance := inst, path := reqPath,
                 command_key := key } : ReqMapEntry) →
      SubsMap_FindByPath us.subs_map reqPath pathMatch ≠ none →
      ReqMap_Find us.req_map reqPath key = none →
      us.controller_mtp ≠ MtpConn.protNone →
      (∃ rest, res.2.2 = BrokerEvent.reqMapAdd entry ::
          BrokerEvent.sendOperate reqPath key :: rest) ∧
      (res.1 ≠ UspErr.ok → res.2.1 = us) ∧
      (res.1 = UspErr.ok → BrokerEvent.signalStatusActive inst ∈ res.2.2) ∧
      (BrokerEvent.signalComplete inst ∈ res.2.2 →
        res.1 = UspErr.ok ∧ res.2.1 = us) ∧
      (res.1 = UspErr.ok → BrokerEvent.signalComplete inst ∉ res.2.2 →
        res.2.1 = { us with req_map := us.req_map ++ [entry] })) := by
  refine ⟨?_, ?_, ?_, ?_⟩
  · intro h
    simp only [Broker_AsyncOperate, h]
  · intro err hs
    obtain ⟨smap, hs'⟩ := Option.ne_none_iff_exists'.mp hs
    simp only [Broker_AsyncOperate, hs']
  · intro hs hd
    obtain ⟨smap, hs'⟩ := Option.ne_none_iff_exists'.mp hs
    obtain ⟨rm, hd'⟩ := Option.ne_none_iff_exists'.mp hd
    simp only [Broker_AsyncOperate, hs', hd']
  · intro res entry hres hentry hs hd hc
    obtain ⟨smap, hs'⟩ := Option.ne_none_iff_exists'.mp hs
    have hall : ∀ a ∈ us.req_map,
        (fun r : ReqMapEntry =>
          r.path = reqPath && r.command_key = key) a = false := by
      intro a ha
      have hfa := List.find?_eq_none.mp (by
        rw [ReqMap_Find] at hd
        exact hd) a ha
      simpa using hfa
    have hrm := removeFirstBy_append_of_all_neg
      (fun r : ReqMapEntry => r.path = reqPath && r.command_key = key)
      us.req_map
      { request_instance := inst, path := reqPath, command_key := key }
      hall (by simp)
    have hevs := sendOperate_events
      { us with req_map := us.req_map ++
          [{ request_instance := inst, path := reqPath, command_key := key }] }
      reqPath false key resp? hc
    rcases hS : SendOperateAndProcessResponse
        { us with req_map := us.req_map ++
            [{ request_instance := inst, path := reqPath, command_key := key }] }
        reqPath false key resp? with ⟨e, fin, evs⟩
    rw [hS] at hevs
    simp only at hevs
    subst hevs hres hentry
    by_cases he : e = UspErr.ok
    · subst he
      cases fin with
      | true =>
        have hcase : Broker_AsyncOperate us pathMatch (Sum.inr key) resp?
            reqPath inst =
            (UspErr.ok, us,
              [BrokerEvent.reqMapAdd
                  { request_instance := inst, path := reqPath, command_key := key },
                BrokerEvent.sendOperate reqPath key,
                BrokerEvent.signalStatusActive inst,
                BrokerEvent.signalComplete inst,
                BrokerEvent.reqMapRemove
                  { request_instance := inst, path := reqPath,
                    command_key := key }]) := by
          simp [Broker_AsyncOperate, hs', hd, hS, hrm]
        rw [hcase]
        refine ⟨⟨[BrokerEvent.signalStatusActive inst,
            BrokerEvent.signalComplete inst,
            BrokerEvent.reqMapRemove
              { request_instance := inst, path := reqPath, command_key := key }],
            rfl⟩, by simp, by simp, fun _ => ⟨rfl, rfl⟩, ?_⟩
        intro _ hmem
        exfalso
        exact hmem (by simp)
      | false =>
        have hcase : Broker_AsyncOperate us pathMatch (Sum.inr key) resp?
            reqPath inst =
            (UspErr.ok,
              { us with req_map := us.req_map ++
                  [{ request_instance := inst, path := reqPath,
                     command_key := key }] },
              [BrokerEvent.reqMapAdd
                  { request_instance := inst, path := reqPath, command_key := key },
                BrokerEvent.sendOperate reqPath key,
                BrokerEvent.signalStatusActive inst]) := by
          simp [Broker_AsyncOperate, hs', hd, hS]
        rw [hcase]
        refine ⟨⟨[BrokerEvent.signalStatusActive inst], rfl⟩, by simp, by simp,
          ?_, fun _ _ => rfl⟩
        intro hmem
        simp at hmem
    · have hcase : Broker_AsyncOperate us pathMatch (Sum.inr key) resp?
          reqPath inst =
          (e, us,
            [BrokerEvent.reqMapAdd
                { request_instance := inst, path := reqPath, command_key := key },
              BrokerEvent.sendOperate reqPath key,
              BrokerEvent.reqMapRemove
                { request_instance := inst, path := reqPath,
                  command_key := key }]) := by
        simp [Broker_AsyncOperate, hs', hd, hS, hrm, he]
      rw [hcase]
      refine ⟨⟨[BrokerEvent.reqMapRemove
          { request_instance := inst, path := reqPath, command_key := key }],
          rfl⟩, fun _ => rfl, ?_, ?_, ?_⟩
      · intro hok
        exact absurd hok he
      · intro hmem
        simp at hmem
      · intro hok
        exact absurd hok he

/-- C4 counterexample: the claim's "otherwise a ReqMapEntry is inserted
into req_map before the Operate request is sent" fails when `(path,
command_key)` already occurs in the Service's `req_map`: with a matching
`OperationComplete` subscription present, `Broker_AsyncOperate` returns
`REQUEST_DENIED` with no insertion and no send. -/
theorem C4_counterexample :
    ¬ (∀ (us : UspService) (pathMatch : List Char → List Char → Bool)
        (key : String) (resp? : Option OperateRespMsg) (reqPath : List Char)
        (inst : Nat),
        SubsMap_FindByPath us.subs_map reqPath pathMatch ≠ none →
        ∃ rest,
          (Broker_AsyncOperate us pathMatch (Sum.inr key) resp? reqPath
              inst).2.2 =
            BrokerEvent.reqMapAdd
                { request_instance := inst, path := reqPath,
                  command_key := key } :: rest) := by
  intro h
  have hsub : SubsMap_FindByPath opService.subs_map
      ("Device.Foo.Reboot()".data) (fun a b => a = b) ≠ none := by decide
  obtain ⟨rest, hr⟩ := h opService (fun a b => a = b) ("K") none
    ("Device.Foo.Reboot()".data) 7 hsub
  have hev : (Broker_AsyncOperate opService (fun a b => a = b) (Sum.inr ("K"))
      none ("Device.Foo.Reboot()".data) 7).2.2 = [] := by decide
  rw [hev] at hr
  cases hr

/-- Service with a live controller-direction connection, for the
    witnesses that exercise the send path. -/
def connService : UspService :=
  { opService with controller_mtp := MtpConn.uds UdsPathType.brokersController 5 }

/-- Operate Response carrying a `req_obj_path` (async command started). -/
def operateResp1 : OperateRespMsg :=
  { validateErr := UspErr.ok,
    results := [("Device.Foo.Reboot()".data,
      OperRespCase.reqObjPath ("Device.LocalAgent.Request.3.".data))] }

theorem C4_witness :
    SubsMap_FindByPath connService.subs_map ("Device.Foo.Reboot()".data)
        (fun a b => a = b) ≠ none ∧
    ReqMap_Find connService.req_map ("Device.Foo.Reboot()".data) ("K2") =
      none ∧
    connService.controller_mtp ≠ MtpConn.protNone ∧
    (∃ rest,
      (Broker_AsyncOperate connService (fun a b => a = b) (Sum.inr ("K2"))
          (some operateResp1) ("Device.Foo.Reboot()".data) 7).2.2 =
        BrokerEvent.reqMapAdd
            { request_instance := 7, path := "Device.Foo.Reboot()".data,
              command_key := "K2" } ::
          BrokerEvent.sendOperate ("Device.Foo.Reboot()".data) ("K2") ::
            rest) := by
  refine ⟨by decide, by decide, by decide, ?_⟩
  exact ((C4_brokerAsyncOperate_spec connService (fun a b => a = b) ("K2")
      (some operateResp1) ("Device.Foo.Reboot()".data) 7).2.2.2
    _ _ rfl rfl (by decide) (by decide) (by decide)).1

theorem findServiceByEndpoint_get (tbl : List UspService) (eid : String)
    (i : Nat) (us : UspService)
    (h : findServiceByEndpoint tbl eid = some (i, us)) :
    ∃ hi : i < tbl.length, tbl.get ⟨i, hi⟩ = us := by
  induction tbl generalizing i with
  | nil => simp [findServiceByEndpoint] at h
  | cons s rest ih =>
    by_cases hs : s.endpoint_id = eid
    · rw [findServiceByEndpoint, if_pos hs] at h
      obtain ⟨rfl, rfl⟩ : 0 = i ∧ s = us := by simpa using h
      exact ⟨by simp, rfl⟩
    · rw [findServiceByEndpoint, if_neg hs] at h
      cases hr : findServiceByEndpoint rest eid with
      | none => rw [hr] at h; simp at h
      | some p =>
        rw [hr] at h
        obtain ⟨hip, hup⟩ : p.1 + 1 = i ∧ p.2 = us := by simpa using h
        have hr2 : findServiceByEndpoint rest eid = some (p.1, us) := by
          rw [hr, ← hup]
        obtain ⟨hj, hget⟩ := ih p.1 hr2
        subst hip
        exact ⟨by simpa using Nat.succ_lt_succ hj, hget⟩

theorem findServiceByEndpoint_modifyIdx (tbl : List UspService) (eid : String)
    (i : Nat) (us : UspService) (f : UspService → UspService)
    (hf : (f us).endpoint_id = us.endpoint_id)
    (heid : us.endpoint_id = eid)
    (h : findServiceByEndpoint tbl eid = some (i, us)) :
    findServiceByEndpoint (modifyIdx tbl i f) eid = some (i, f us) := by
  induction tbl generalizing i with
  | nil => simp [findServiceByEndpoint] at h
  | cons s rest ih =>
    by_cases hs : s.endpoint_id = eid
    · rw [findServiceByEndpoint, if_pos hs] at h
      obtain ⟨rfl, rfl⟩ : 0 = i ∧ s = us := by simpa using h
      rw [show modifyIdx (s :: rest) 0 f = f s :: rest from rfl,
        findServiceByEndpoint, if_pos (by rw [hf, heid])]
    · rw [findServiceByEndpoint, if_neg hs] at h
      cases i with
      | zero =>
        cases hr : findServiceByEndpoint rest eid with
        | none => rw [hr] at h; simp at h
        | some p =>
          rw [hr] at h
          simp at h
      | succ n =>
        rw [show modifyIdx (s :: rest) (n + 1) f = s :: modifyIdx rest n f
          from rfl, findServiceByEndpoint, if_neg hs]
        cases hr : findServiceByEndpoint rest eid with
        | none => rw [hr] at h; simp at h
        | some p =>
          obtain ⟨a, b⟩ := p
          rw [hr] at h
          obtain ⟨hip, hup⟩ : a + 1 = n + 1 ∧ b = us := by simpa using h
          have hr2 : findServiceByEndpoint rest eid = some (n, us) := by
            rw [hr, ← hup, show a = n by omega]
          rw [ih n hr2]
          simp

/-- C6: passthru round trip.  After `PassThruToUspService` records the
`MsgMapEntry` for a freshly allocated broker message id, a response or
ERROR from the Service carrying that id is forwarded to the recorded
originator over the recorded MTP with only the message id rewritten back
to the original (the body is untouched), the entry is removed exactly
once (the table returns to its pre-passthru state), and a second response
with the same message id finds no entry and is not passed back. -/
theorem C6_passthru_roundtrip (tbl : List UspService) (i : Nat)
    (us : UspService) (orig_msg_id : String) (reqBody respBody : List Nat)
    (originator : String) (mtpc : MtpConn) (broker_msg_id : String)
    (hfind : findServiceByEndpoint tbl us.endpoint_id = some (i, us))
    (hfresh : ∀ e ∈ us.msg_map, e.broker_msg_id ≠ broker_msg_id) :
    (PassThruToUspService tbl i orig_msg_id reqBody originator mtpc
        broker_msg_id UspErr.ok).1 = UspErr.ok ∧
    AttemptPassThruForResponse
        (PassThruToUspService tbl i orig_msg_id reqBody originator mtpc
          broker_msg_id UspErr.ok).2.1 true broker_msg_id respBody
        us.endpoint_id =
      (true, tbl,
        [BrokerEvent.queueToOriginator originator orig_msg_id respBody mtpc]) ∧
    AttemptPassThruForResponse tbl true broker_msg_id respBody
        us.endpoint_id = (false, tbl, []) := by
  obtain ⟨hi, hget⟩ := findServiceByEndpoint_get tbl us.endpoint_id i us hfind
  have hgetq : tbl[i]? = some us := by
    rw [List.getElem?_eq_getElem hi, ← hget]
    rfl
  have hnone : List.find?
      (fun e : MsgMapEntry => e.broker_msg_id = broker_msg_id) us.msg_map =
      none := by
    rw [List.find?_eq_none]
    intro e he
    simp [hfresh e he]
  have hpass : PassThruToUspService tbl i orig_msg_id reqBody originator mtpc
      broker_msg_id UspErr.ok =
      (UspErr.ok,
        modifyIdx tbl i (fun u => { u with msg_map := u.msg_map ++
          [{ broker_msg_id := broker_msg_id, original_msg_id := orig_msg_id,
             originator := originator, mtp_conn := mtpc }] }),
        [BrokerEvent.queueToService us.endpoint_id broker_msg_id reqBody]) := by
    simp [PassThruToUspService, hgetq]
  have hfind1 := findServiceByEndpoint_modifyIdx tbl us.endpoint_id i us
    (fun u => { u with msg_map := u.msg_map ++
      [{ broker_msg_id := broker_msg_id, original_msg_id := orig_msg_id,
         originator := originator, mtp_conn := mtpc }] })
    rfl rfl hfind
  have hfound : MsgMap_Find (us.msg_map ++
      [{ broker_msg_id := broker_msg_id, original_msg_id := orig_msg_id,
         originator := originator, mtp_conn := mtpc }]) broker_msg_id =
      some { broker_msg_id := broker_msg_id, original_msg_id := orig_msg_id,
             originator := originator, mtp_conn := mtpc } := by
    rw [MsgMap_Find, List.find?_append, hnone]
    simp
  have hrm : removeFirstBy
      (fun e : MsgMapEntry => e.broker_msg_id = broker_msg_id)
      (us.msg_map ++
        [{ broker_msg_id := broker_msg_id, original_msg_id := orig_msg_id,
           originator := originator, mtp_conn := mtpc }]) = us.msg_map := by
    apply removeFirstBy_append_of_all_neg
    · intro a ha
      simp [hfresh a ha]
    · simp
  have hback : modifyIdx
      (modifyIdx tbl i (fun u => { u with msg_map := u.msg_map ++
        [{ broker_msg_id := broker_msg_id, original_msg_id := orig_msg_id,
           originator := originator, mtp_conn := mtpc }] })) i
      (fun u =>
        { u with msg_map := removeFirstBy (fun e => e.broker_msg_id = broker_msg_id) u.msg_map }) =
      tbl := by
    rw [modifyIdx_modifyIdx]
    apply modifyIdx_eq_self
    intro hi2
    rw [hget]
    simp only [hrm]
  refine ⟨by rw [hpass], ?_, ?_⟩
  · rw [hpass]
    simp only [AttemptPassThruForResponse, Bool.not_true, Bool.false_eq_true,
      if_false, hfind1, hfound, hback]
  · simp only [AttemptPassThruForResponse, Bool.not_true, Bool.false_eq_true,
      if_false, hfind]
    rw [show MsgMap_Find us.msg_map broker_msg_id = none from hnone]

theorem C6_witness :
    findServiceByEndpoint [baseService] baseService.endpoint_id =
      some (0, baseService) ∧
    (∀ e ∈ baseService.msg_map, e.broker_msg_id ≠ "BROKER-5-0") ∧
    ((PassThruToUspService [baseService] 0 ("m9") [1, 2] ("ctrl")
        (MtpConn.nonUds 1 3) ("BROKER-5-0") UspErr.ok).1 = UspErr.ok ∧
      AttemptPassThruForResponse
          (PassThruToUspService [baseService] 0 ("m9") [1, 2] ("ctrl")
            (MtpConn.nonUds 1 3) ("BROKER-5-0") UspErr.ok).2.1 true
          ("BROKER-5-0") [7, 8] baseService.endpoint_id =
        (true, [baseService],
          [BrokerEvent.queueToOriginator ("ctrl") ("m9") [7, 8]
            (MtpConn.nonUds 1 3)]) ∧
      AttemptPassThruForResponse [baseService] true ("BROKER-5-0") [7, 8]
          baseService.endpoint_id = (false, [baseService], [])) :=
  ⟨by decide, by decide,
    C6_passthru_roundtrip [baseService] 0 baseService ("m9") [1, 2] [7, 8]
      ("ctrl") (MtpConn.nonUds 1 3) ("BROKER-5-0") (by decide) (by decide)⟩

theorem modifyIdx_eq_const (l : List α) (i : Nat) (f : α → α) (x : α)
    (h : ∀ hi : i < l.length, l.get ⟨i, hi⟩ = x) :
    modifyIdx l i f = modifyIdx l i (fun _ => f x) := by
  induction l generalizing i with
  | nil => rfl
  | cons a rest ih =>
    cases i with
    | zero =>
      have := h (by simp)
      simp only [List.get] at this
      simp [modifyIdx, this]
    | succ n =>
      simp only [modifyIdx, List.cons.injEq, true_and]
      exact ih n (fun hn => h (by simpa using Nat.succ_lt_succ hn))

theorem addUspService_known (tbl : List UspService) (maxServices : Nat)
    (freeGroupId : Option Nat) (informOk : Bool) (endpoint_id : String)
    (mtpc : MtpConn) (i : Nat) (us : UspService)
    (h : findServiceByEndpoint tbl endpoint_id = some (i, us)) :
    USP_BROKER_AddUspService tbl maxServices freeGroupId informOk endpoint_id
        mtpc =
      (UspErr.ok, modifyIdx tbl i (fun _ =>
        if isBrokersAgentConn mtpc then
          { UpdateUspServiceMRT us mtpc with has_controller := true }
        else UpdateUspServiceMRT us mtpc)) := by
  obtain ⟨hi, hget⟩ := findServiceByEndpoint_get tbl endpoint_id i us h
  unfold USP_BROKER_AddUspService
  rw [h]
  simp only [modifyIdx_modifyIdx]
  rw [modifyIdx_eq_const tbl i _ us (fun _ => hget)]

/-- C9: calling `USP_BROKER_AddUspService` for an endpoint that already
has a live entry allocates no new slot, instance number or group id and
leaves `registered_paths`, `subs_map`, `req_map` and `msg_map` untouched;
only the role-appropriate MTP connection handle is replaced (both handles
on role-less transports, which share one connection), and a connection on
the Broker's agent socket additionally sets `has_controller`. -/
theorem C9_addUspService_idempotent (tbl : List UspService)
    (maxServices : Nat) (freeGroupId : Option Nat) (informOk : Bool)
    (endpoint_id : String) (mtpc : MtpConn) (i : Nat) (us : UspService)
    (h : findServiceByEndpoint tbl endpoint_id = some (i, us)) :
    ∃ us',
      USP_BROKER_AddUspService tbl maxServices freeGroupId informOk
          endpoint_id mtpc = (UspErr.ok, modifyIdx tbl i (fun _ => us')) ∧
      (USP_BROKER_AddUspService tbl maxServices freeGroupId informOk
          endpoint_id mtpc).2.length = tbl.length ∧
      us'.instance_num = us.instance_num ∧
      us'.endpoint_id = us.endpoint_id ∧
      us'.group_id = us.group_id ∧
      us'.gsdm_msg_id = us.gsdm_msg_id ∧
      us'.registered_paths = us.registered_paths ∧
      us'.subs_map = us.subs_map ∧
      us'.req_map = us.req_map ∧
      us'.msg_map = us.msg_map ∧
      us'.has_controller = (us.has_controller || isBrokersAgentConn mtpc) ∧
      (∀ cid, mtpc = MtpConn.uds UdsPathType.brokersAgent cid →
        us'.agent_mtp = mtpc ∧ us'.controller_mtp = us.controller_mtp) ∧
      (∀ cid, mtpc = MtpConn.uds UdsPathType.brokersController cid →
        us'.controller_mtp = mtpc ∧ us'.agent_mtp = us.agent_mtp) ∧
      ((∀ pt cid, mtpc ≠ MtpConn.uds pt cid) →
        us'.controller_mtp = mtpc ∧ us'.agent_mtp = mtpc) := by
  have hknown := addUspService_known tbl maxServices freeGroupId informOk
    endpoint_id mtpc i us h
  refine ⟨if isBrokersAgentConn mtpc then
      { UpdateUspServiceMRT us mtpc with has_controller := true }
    else UpdateUspServiceMRT us mtpc, hknown, ?_, ?_⟩
  · rw [hknown]
    exact modifyIdx_length tbl i _
  · cases mtpc with
    | protNone =>
      simp [isBrokersAgentConn, UpdateUspServiceMRT]
    | uds pt cid =>
      cases pt with
      | brokersAgent =>
        simp [isBrokersAgentConn, UpdateUspServiceMRT]
      | brokersController =>
        simp [isBrokersAgentConn, UpdateUspServiceMRT]
    | nonUds p c =>
      simp [isBrokersAgentConn, UpdateUspServiceMRT]

theorem C9_witness :
    findServiceByEndpoint [opService] ("e1") = some (0, opService) ∧
    ∃ us',
      USP_BROKER_AddUspService [opService] 5 (some 8) true ("e1")
          (MtpConn.uds UdsPathType.brokersAgent 9) =
        (UspErr.ok, modifyIdx [opService] 0 (fun _ => us')) ∧
      us'.req_map = opService.req_map ∧
      us'.has_controller = true := by
  refine ⟨by decide, ?_⟩
  obtain ⟨us', h1, h2, h3, h4, h5, h6, h7, h8, h9, h10, h11, h12, h13, h14⟩ :=
    C9_addUspService_idempotent [opService] 5 (some 8) true ("e1")
      (MtpConn.uds UdsPathType.brokersAgent 9) 0 opService (by decide)
  refine ⟨us', h1, h9, ?_⟩
  rw [h11]
  decide

theorem modifyIdx_getElem?_self (l : List α) (i : Nat) (f : α → α) :
    (modifyIdx l i f)[i]? = (l[i]?).map f := by
  induction l generalizing i with
  | nil => cases i <;> rfl
  | cons a rest ih =>
    cases i with
    | zero => simp [modifyIdx]
    | succ n => simpa [modifyIdx] using ih n

theorem modifyIdx_getElem?_other (l : List α) (i j : Nat) (f : α → α)
    (h : j ≠ i) :
    (modifyIdx l i f)[j]? = l[j]? := by
  induction l generalizing i j with
  | nil => cases i <;> rfl
  | cons a rest ih =>
    cases i with
    | zero =>
      cases j with
      | zero => exact absurd rfl h
      | succ m => simp [modifyIdx]
    | succ n =>
      cases j with
      | zero => simp [modifyIdx]
      | succ m => simpa [modifyIdx] using ih n m (by omega)

/-- Two Services own no common registered path
    (global invariant 1 of the spec, for a pair). -/
def disjointPaths (a b : UspService) : Bool :=
  a.registered_paths.all (fun p => !(b.registered_paths.contains p))

/-- No two live Services own a common top-level registered path. -/
def noDuplicateOwnership : List UspService → Bool
  | [] => true
  | s :: rest => rest.all (fun t => disjointPaths s t) && noDuplicateOwnership rest

theorem all_modifyIdx {q : α → Bool} (l : List α) (n : Nat) (f : α → α)
    (h : l.all q = true) (hf : ∀ x ∈ l, q x = true → q (f x) = true) :
    (modifyIdx l n f).all q = true := by
  induction l generalizing n with
  | nil => rfl
  | cons a rest ih =>
    rw [List.all_cons, Bool.and_eq_true] at h
    cases n with
    | zero =>
      rw [show modifyIdx (a :: rest) 0 f = f a :: rest from rfl, List.all_cons,
        Bool.and_eq_true]
      exact ⟨hf a (by simp) h.1, h.2⟩
    | succ m =>
      rw [show modifyIdx (a :: rest) (m + 1) f = a :: modifyIdx rest m f
        from rfl, List.all_cons, Bool.and_eq_true]
      exact ⟨h.1, ih m h.2 (fun x hx hq => hf x (by simp [hx]) hq)⟩

theorem disjointPaths_add_right (a b : UspService) (path : List Char)
    (hd : disjointPaths a b = true)
    (hna : a.registered_paths.contains path = false) :
    disjointPaths a { b with registered_paths :=
      b.registered_paths ++ [path] } = true := by
  rw [disjointPaths] at hd ⊢
  rw [List.all_eq_true] at hd ⊢
  intro p hp
  have h1 := hd p hp
  have h2 : p ≠ path := by
    intro e
    subst e
    have : p ∈ a.registered_paths := hp
    simp at hna
    exact hna this
  simp at h1 ⊢
  exact ⟨h1, h2⟩

theorem noDuplicateOwnership_add (tbl : List UspService) (i : Nat)
    (path : List Char)
    (hnot : tbl.any (fun s => s.registered_paths.contains path) = false)
    (h : noDuplicateOwnership tbl = true) :
    noDuplicateOwnership (modifyIdx tbl i (fun us =>
      { us with registered_paths := us.registered_paths ++ [path] })) =
      true := by
  induction tbl generalizing i with
  | nil => rfl
  | cons s rest ih =>
    rw [List.any_cons, Bool.or_eq_false_iff] at hnot
    rw [noDuplicateOwnership, Bool.and_eq_true] at h
    cases i with
    | zero =>
      rw [show modifyIdx (s :: rest) 0 (fun us =>
          { us with registered_paths := us.registered_paths ++ [path] }) =
          { s with registered_paths := s.registered_paths ++ [path] } :: rest
        from rfl, noDuplicateOwnership, Bool.and_eq_true]
      refine ⟨?_, h.2⟩
      rw [List.all_eq_true] at h ⊢
      intro t ht
      rw [disjointPaths, List.all_append, Bool.and_eq_true]
      have hst := h.1 t ht
      rw [disjointPaths] at hst
      refine ⟨hst, ?_⟩
      have htc : t.registered_paths.contains path = false := by
        have := List.any_eq_false.mp hnot.2 t ht
        simpa using this
      simp at htc ⊢
      exact htc
    | succ n =>
      rw [show modifyIdx (s :: rest) (n + 1) (fun us =>
          { us with registered_paths := us.registered_paths ++ [path] }) =
          s :: modifyIdx rest n (fun us =>
            { us with registered_paths := us.registered_paths ++ [path] })
        from rfl, noDuplicateOwnership, Bool.and_eq_true]
      refine ⟨?_, ih n hnot.2 h.2⟩
      apply all_modifyIdx rest n _ h.1
      intro t ht hq
      exact disjointPaths_add_right s t path hq hnot.1

theorem validateUspServicePath_dichotomy (path : List Char) :
    ValidateUspServicePath path = UspErr.ok ∨
      ValidateUspServicePath path = UspErr.registerFailure := by
  rw [ValidateUspServicePath]
  split_ifs <;> simp

/-- C1 (amended): `RegisterUspServicePath` rejects a requested path with
`PATH_ALREADY_REGISTERED` whenever any Service (including the requester)
already owns it, or whenever it is textually valid and already exists in
the Broker's schema; an un-owned but textually invalid path is rejected
with `REGISTER_FAILURE` (the schema is not consulted); otherwise the path
is added to exactly one Service's `registered_paths`, every other table
entry is unchanged, and the invariant that no two live Services own the
same top-level registered path is preserved. -/
theorem C1_registerUspServicePath_spec (tbl : List UspService) (i : Nat)
    (schema : List Char → Bool) (path : List Char) :
    (tbl.any (fun s => s.registered_paths.contains path) = true →
      RegisterUspServicePath tbl i schema path =
        (UspErr.pathAlreadyRegistered, tbl)) ∧
    (tbl.any (fun s => s.registered_paths.contains path) = false →
      ValidateUspServicePath path = UspErr.ok →
      schema path = true →
      RegisterUspServicePath tbl i schema path =
        (UspErr.pathAlreadyRegistered, tbl)) ∧
    (tbl.any (fun s => s.registered_paths.contains path) = false →
      ValidateUspServicePath path ≠ UspErr.ok →
      RegisterUspServicePath tbl i schema path =
        (UspErr.registerFailure, tbl)) ∧
    (tbl.any (fun s => s.registered_paths.contains path) = false →
      ValidateUspServicePath path = UspErr.ok →
      schema path = false →
      (RegisterUspServicePath tbl i schema path).1 = UspErr.ok ∧
      (∀ usi, tbl[i]? = some usi →
        ((RegisterUspServicePath tbl i schema path).2)[i]? =
          some { usi with registered_paths :=
            usi.registered_paths ++ [path] }) ∧
      (∀ j, j ≠ i →
        ((RegisterUspServicePath tbl i schema path).2)[j]? = tbl[j]?) ∧
      (RegisterUspServicePath tbl i schema path).2.length = tbl.length) ∧
    (noDuplicateOwnership tbl = true →
      noDuplicateOwnership (RegisterUspServicePath tbl i schema path).2 =
        true) := by
  refine ⟨?_, ?_, ?_, ?_, ?_⟩
  · intro h
    rw [RegisterUspServicePath, if_pos h]
  · intro hn hv hs
    rw [RegisterUspServicePath, if_neg (by rw [hn]; simp),
      if_neg (by rw [hv]; simp), if_pos (by rw [hs])]
  · intro hn hv
    rcases validateUspServicePath_dichotomy path with hok | hrf
    · exact absurd hok hv
    · rw [RegisterUspServicePath, if_neg (by rw [hn]; simp), if_pos hv, hrf]
  · intro hn hv hs
    rw [RegisterUspServicePath, if_neg (by rw [hn]; simp),
      if_neg (by rw [hv]; simp), if_neg (by rw [hs]; simp)]
    refine ⟨rfl, ?_, ?_, ?_⟩
    · intro usi hus
      rw [modifyIdx_getElem?_self, hus]
      rfl
    · intro j hj
      exact modifyIdx_getElem?_other tbl i j _ hj
    · exact modifyIdx_length tbl i _
  · intro hd
    rw [RegisterUspServicePath]
    split_ifs with h1 h2 h3
    · exact hd
    · exact hd
    · exact hd
    · have hn : tbl.any (fun s => s.registered_paths.contains path) = false := by
        cases hany : tbl.any (fun s => s.registered_paths.contains path)
        · rfl
        · exact absurd hany h1
      exact noDuplicateOwnership_add tbl i path hn hd

/-- C1 counterexample: the claim's "rejects with PATH_ALREADY_REGISTERED
whenever any Service already owns it or it exists in the schema" fails
for a textually invalid path that exists in the schema: for
`"Device.Foo"` (no trailing dot, owned by nobody, present in the schema)
`RegisterUspServicePath` returns `REGISTER_FAILURE`, not
`PATH_ALREADY_REGISTERED`, because validation runs before the schema
check. -/
theorem C1_counterexample :
    ¬ (∀ (tbl : List UspService) (i : Nat) (schema : List Char → Bool)
        (path : List Char),
        (tbl.any (fun s => s.registered_paths.contains path) = true ∨
            schema path = true →
          (RegisterUspServicePath tbl i schema path).1 =
            UspErr.pathAlreadyRegistered) ∧
        (tbl.any (fun s => s.registered_paths.contains path) = false →
          schema path = false →
          (RegisterUspServicePath tbl i schema path).1 = UspErr.ok)) := by
  intro h
  have h1 := (h [baseService] 0 (fun p => p = "Device.Foo".data)
    ("Device.Foo".data)).1 (Or.inr (by decide))
  have hev : (RegisterUspServicePath [baseService] 0
      (fun p => p = "Device.Foo".data) ("Device.Foo".data)).1 =
      UspErr.registerFailure := by decide
  rw [hev] at h1
  cases h1

theorem C1_witness :
    ([baseService].any
      (fun s => s.registered_paths.contains ("Device.Foo.".data)) = false) ∧
    ValidateUspServicePath ("Device.Foo.".data) = UspErr.ok ∧
    noDuplicateOwnership [baseService] = true ∧
    ((RegisterUspServicePath [baseService] 0 (fun _ => false)
        ("Device.Foo.".data)).1 = UspErr.ok ∧
      ((RegisterUspServicePath [baseService] 0 (fun _ => false)
          ("Device.Foo.".data)).2)[0]? =
        some { baseService with registered_paths :=
          baseService.registered_paths ++ [("Device.Foo.".data)] } ∧
      noDuplicateOwnership (RegisterUspServicePath [baseService] 0
        (fun _ => false) ("Device.Foo.".data)).2 = true) := by
  refine ⟨by decide, by decide, by decide, ?_⟩
  have h := C1_registerUspServicePath_spec [baseService] 0 (fun _ => false)
    ("Device.Foo.".data)
  refine ⟨(h.2.2.2.1 (by decide) (by decide) rfl).1,
    (h.2.2.2.1 (by decide) (by decide) rfl).2.1 baseService rfl,
    h.2.2.2.2 (by decide)⟩

theorem registerUspServicePath_length (tbl : List UspService) (i : Nat)
    (schema : List Char → Bool) (p : List Char) :
    (RegisterUspServicePath tbl i schema p).2.length = tbl.length := by
  rw [RegisterUspServicePath]
  split_ifs <;> simp [modifyIdx_length]

/-- Sequential evaluation of the Register path loop: `true` iff some
    requested path fails validation or conflicts when the paths are
    processed in request order (the per-path outcome depends on the
    paths admitted earlier in the same message). -/
def registerLoopFails (i : Nat) (schema : List Char → Bool) :
    List (List Char) → List UspService → Bool
  | [], _ => false
  | p :: rest, tbl =>
      if (RegisterUspServicePath tbl i schema p).1 ≠ UspErr.ok then true
      else registerLoopFails i schema rest
        (RegisterUspServicePath tbl i schema p).2

theorem registerPathsLoop_fail (i : Nat) (schema : List Char → Bool)
    (msg_id : String) (paths : List (List Char)) (tbl : List UspService)
    (results : List (List Char × UspErr)) (count : Nat)
    (hf : registerLoopFails i schema paths tbl = true) :
    ∃ e tbl₂,
      registerPathsLoop i schema msg_id false tbl paths results count =
        (UspResponse.errorResp msg_id e, tbl₂, 0) ∧
      tbl₂.length = tbl.length ∧
      (∀ usi, tbl₂[i]? = some usi → usi.registered_paths = []) := by
  induction paths generalizing tbl results count with
  | nil => simp [registerLoopFails] at hf
  | cons p rest ih =>
    rw [registerLoopFails] at hf
    by_cases hp : (RegisterUspServicePath tbl i schema p).1 ≠ UspErr.ok
    · refine ⟨(RegisterUspServicePath tbl i schema p).1,
        modifyIdx (RegisterUspServicePath tbl i schema p).2 i
          (fun us => { us with registered_paths := [] }), ?_, ?_, ?_⟩
      · rw [registerPathsLoop, if_pos ⟨hp, rfl⟩]
      · rw [modifyIdx_length, registerUspServicePath_length]
      · intro usi hus
        rw [modifyIdx_getElem?_self] at hus
        cases hq : ((RegisterUspServicePath tbl i schema p).2)[i]? with
        | none => rw [hq] at hus; cases hus
        | some x =>
          rw [hq] at hus
          have : ({ x with registered_paths := [] } : UspService) = usi := by
            simpa using hus
          rw [← this]
    · rw [if_neg hp] at hf
      obtain ⟨e, tbl₂, h1, h2, h3⟩ :=
        ih (RegisterUspServicePath tbl i schema p).2
          (results ++ [(p, (RegisterUspServicePath tbl i schema p).1)])
          (count + 1) hf
      refine ⟨e, tbl₂, ?_, by rw [h2, registerUspServicePath_length], h3⟩
      rw [registerPathsLoop, if_neg (by simp [not_not.mp hp])]
      exact h1

/-- C2: for a Register message with `allow_partial = false` in which some
path fails validation or conflicts, the handler queues a single ERROR
message (no RegisterResp), the Service's `registered_paths` is left
empty, and no GetSupportedDM request is issued. -/
theorem C2_handleRegister_allowPartialFalse (tbl : List UspService)
    (schema : List Char → Bool) (env : HandleRegEnv) (maxServices : Nat)
    (msg_id : String) (paths : List (List Char)) (endpoint_id : String)
    (mtpc : MtpConn) (tbl1 : List UspService) (i : Nat)
    (hpre : registerPreamble tbl env maxServices msg_id
        (some (false, paths)) endpoint_id mtpc = Sum.inr (tbl1, i))
    (hf : registerLoopFails i schema paths tbl1 = true) :
    ∃ e tblF,
      USP_BROKER_HandleRegister tbl schema env maxServices msg_id
          (some (false, paths)) endpoint_id mtpc =
        (tblF,
          [BrokerEvent.queueResponse (UspResponse.errorResp msg_id e)]) ∧
      (∀ usi, tblF[i]? = some usi → usi.registered_paths = []) := by
  obtain ⟨e, tbl₂, h1, h2, h3⟩ :=
    registerPathsLoop_fail i schema msg_id paths tbl1 [] 0 hf
  refine ⟨e, tbl₂, ?_, h3⟩
  rw [USP_BROKER_HandleRegister, hpre]
  simp only [h1]
  simp

/-- Concrete collaborator outcomes used by the Register witnesses. -/
def regEnv : HandleRegEnv :=
  { freeGroupId := some 3, informOk := true, gsdmMsgId := "BROKER-1-100",
    addSchemaOk := fun _ => true }

theorem C2_witness :
    registerPreamble [] regEnv 5 ("m2") (some (false, ["Device.Bad".data]))
        ("svc2") (MtpConn.uds UdsPathType.brokersController 1) =
      Sum.inr ([mkNewUspService [] ("svc2") 3
        (MtpConn.uds UdsPathType.brokersController 1)], 0) ∧
    registerLoopFails 0 (fun _ => false) ["Device.Bad".data]
      [mkNewUspService [] ("svc2") 3
        (MtpConn.uds UdsPathType.brokersController 1)] = true ∧
    (∃ e tblF, USP_BROKER_HandleRegister [] (fun _ => false) regEnv 5 ("m2")
        (some (false, ["Device.Bad".data])) ("svc2")
        (MtpConn.uds UdsPathType.brokersController 1) =
        (tblF,
          [BrokerEvent.queueResponse (UspResponse.errorResp ("m2") e)]) ∧
      (∀ usi, tblF[0]? = some usi → usi.registered_paths = [])) := by
  refine ⟨by decide, by decide, ?_⟩
  exact C2_handleRegister_allowPartialFalse [] (fun _ => false) regEnv 5
    ("m2") ["Device.Bad".data] ("svc2")
    (MtpConn.uds UdsPathType.brokersController 1)
    [mkNewUspService [] ("svc2") 3
      (MtpConn.uds UdsPathType.brokersController 1)] 0 (by decide) (by decide)

/-- C7 (amended): for a Register whose path loop succeeds with at least
one accepted path (and a live controller-direction connection), the
handler enqueues the RegisterResp first, then queues the GetSupportedDM
request for the accepted paths, and only then inserts a provisional
single-instance object node with `group_id = service.group_id` for each
accepted path (the provisional insertion happens inside
`QueueGetSupportedDMToUspService`, after both messages are queued, not
before the RegisterResp). -/
theorem C7_handleRegister_order (tbl : List UspService)
    (schema : List Char → Bool) (env : HandleRegEnv) (maxServices : Nat)
    (msg_id : String) (ap : Bool) (paths : List (List Char))
    (endpoint_id : String) (mtpc : MtpConn) (tbl1 tbl₂ : List UspService)
    (i c : Nat) (res : List (List Char × UspErr)) (us₂ : UspService)
    (hpre : registerPreamble tbl env maxServices msg_id (some (ap, paths))
        endpoint_id mtpc = Sum.inr (tbl1, i))
    (hloop : registerPathsLoop i schema msg_id ap tbl1 paths [] 0 =
        (UspResponse.registerResp msg_id res, tbl₂, c))
    (hc : c > 0)
    (hget : tbl₂.get? i = some us₂)
    (hreg : us₂.registered_paths ≠ [])
    (hconn : us₂.controller_mtp ≠ MtpConn.protNone)
    (hadd : ∀ p, env.addSchemaOk p = true) :
    (USP_BROKER_HandleRegister tbl schema env maxServices msg_id
        (some (ap, paths)) endpoint_id mtpc).2 =
      BrokerEvent.queueResponse (UspResponse.registerResp msg_id res) ::
        BrokerEvent.queueGetSupportedDM env.gsdmMsgId us₂.registered_paths ::
        us₂.registered_paths.map
          (fun p => BrokerEvent.addSchemaNode p us₂.group_id true) := by
  have hfm : ∀ l : List (List Char),
      l.filterMap (fun p => if env.addSchemaOk p then
        some (BrokerEvent.addSchemaNode p us₂.group_id true) else none) =
      l.map (fun p => BrokerEvent.addSchemaNode p us₂.group_id true) := by
    intro l
    induction l with
    | nil => rfl
    | cons a r ihr => simp [hadd a, ihr]
  have hq : QueueGetSupportedDMToUspService tbl₂ i env =
      (modifyIdx tbl₂ i
          (fun u => { u with gsdm_msg_id := some env.gsdmMsgId }),
        BrokerEvent.queueGetSupportedDM env.gsdmMsgId us₂.registered_paths ::
          us₂.registered_paths.map
            (fun p => BrokerEvent.addSchemaNode p us₂.group_id true)) := by
    rw [QueueGetSupportedDMToUspService, hget]
    simp only [if_neg hreg, if_neg hconn]
    rw [hfm us₂.registered_paths]
  rw [USP_BROKER_HandleRegister, hpre]
  simp only [hloop]
  rw [if_pos hc, hq]

/-- The concrete Register scenario settling C7: a fresh Service
    registers `Device.Foo.` with everything succeeding. -/
def c7Events : List BrokerEvent :=
  (USP_BROKER_HandleRegister [] (fun _ => false) regEnv 5 ("m7")
    (some (false, ["Device.Foo.".data])) ("svc7")
    (MtpConn.uds UdsPathType.brokersController 2)).2

/-- C7 counterexample: in the concrete happy-path Register the event
trace is RegisterResp first, then the GetSupportedDM request, then the
provisional schema insertion — so the claim's "this insertion happens
before the RegisterResp is enqueued" is false (the insertion index is 2,
the RegisterResp index is 0). -/
theorem C7_counterexample :
    c7Events =
      [BrokerEvent.queueResponse (UspResponse.registerResp ("m7")
          [("Device.Foo.".data, UspErr.ok)]),
        BrokerEvent.queueGetSupportedDM ("BROKER-1-100")
          ["Device.Foo.".data],
        BrokerEvent.addSchemaNode ("Device.Foo.".data) 3 true] ∧
    ¬ (∀ (k1 k2 : Nat) (p : List Char) (g : Nat) (si : Bool)
        (r : UspResponse),
        c7Events[k1]? = some (BrokerEvent.addSchemaNode p g si) →
        c7Events[k2]? = some (BrokerEvent.queueResponse r) →
        k1 < k2) := by
  refine ⟨by decide, ?_⟩
  intro h
  have := h 2 0 ("Device.Foo.".data) 3 true
    (UspResponse.registerResp ("m7") [("Device.Foo.".data, UspErr.ok)])
    (by decide) (by decide)
  omega

/-- The Service produced by the C7 happy-path loop. -/
def c7Service : UspService :=
  { mkNewUspService [] ("svc7") 3 (MtpConn.uds UdsPathType.brokersController 2)
      with registered_paths := ["Device.Foo.".data] }

theorem C7_witness :
    registerPreamble [] regEnv 5 ("m7") (some (false, ["Device.Foo.".data]))
        ("svc7") (MtpConn.uds UdsPathType.brokersController 2) =
      Sum.inr ([mkNewUspService [] ("svc7") 3
        (MtpConn.uds UdsPathType.brokersController 2)], 0) ∧
    registerPathsLoop 0 (fun _ => false) ("m7") false
        [mkNewUspService [] ("svc7") 3
          (MtpConn.uds UdsPathType.brokersController 2)]
        ["Device.Foo.".data] [] 0 =
      (UspResponse.registerResp ("m7") [("Device.Foo.".data, UspErr.ok)],
        [c7Service], 1) ∧
    (USP_BROKER_HandleRegister [] (fun _ => false) regEnv 5 ("m7")
        (some (false, ["Device.Foo.".data])) ("svc7")
        (MtpConn.uds UdsPathType.brokersController 2)).2 =
      BrokerEvent.queueResponse (UspResponse.registerResp ("m7")
          [("Device.Foo.".data, UspErr.ok)]) ::
        BrokerEvent.queueGetSupportedDM regEnv.gsdmMsgId
          c7Service.registered_paths ::
        c7Service.registered_paths.map
          (fun p => BrokerEvent.addSchemaNode p c7Service.group_id true) := by
  refine ⟨by decide, by decide, ?_⟩
  exact C7_handleRegister_order [] (fun _ => false) regEnv 5 ("m7") false
    ["Device.Foo.".data] ("svc7")
    (MtpConn.uds UdsPathType.brokersController 2)
    [mkNewUspService [] ("svc7") 3
      (MtpConn.uds UdsPathType.brokersController 2)]
    [c7Service] 0 1 [("Device.Foo.".data, UspErr.ok)] c7Service (by decide)
    (by decide) (by decide) (by decide) (by decide) (by decide)
    (fun p => rfl)
